import Mathlib

/-!
Verification of the bounded-concurrency URL crawler
(`src/python-crawler/main.py`) against its specification.

The embedding models the network environment abstractly: each fetch is
given a `NetOutcome` describing what the HTTP layer produced (a response
with status, Content-Type and body, a timeout, or some other raised
failure), and `fetch_url` is the logic of `main.py:fetch_url` over that
outcome.  Elapsed wall-clock times are modelled as rationals supplied by
the environment.

Fallible operations return `Except`: `urlparse(url).netloc` at
`main.py:14` runs BEFORE the `try:` block of line 16 and CPython's
`urlparse` raises `ValueError` on some URLs (for `http://[::1` it raises
`Invalid IPv6 URL`), so the real `fetch_url` can raise, and that
exception propagates out of `asyncio.gather` (`main.py:77`, default
`return_exceptions=False`), aborting `crawl_urls` without a results
list.  The `.error` case of `fetch_url` and `crawl_urls` is that
propagated exception; everything raised inside the `try:` block is
caught there and never escapes.
-/

/-- Does `needle` occur as a contiguous run inside `hay`? -/
def hasInfix (hay needle : List Char) : Bool :=
  match hay with
  | [] => needle.isEmpty
  | _ :: t => needle.isPrefixOf hay || hasInfix t needle

/-- Python's substring test `needle in hay` (`'text/html' in content_type`,
`main.py:22,28`).  For an empty needle Python returns `True`, as does
`hasInfix`. -/
def strContains (hay needle : String) : Bool :=
  hasInfix hay.toList needle.toList

/-- Python `str.strip()` on the character list: drop leading and trailing
whitespace (`main.py:37`). -/
def pystripL (l : List Char) : List Char :=
  ((l.dropWhile Char.isWhitespace).reverse.dropWhile Char.isWhitespace).reverse

/-- Python `str.strip()` (`main.py:37`). -/
def pystrip (s : String) : String :=
  String.mk (pystripL s.toList)

/-- Characters CPython's `urlparse` accepts inside a scheme. -/
def isSchemeChar (c : Char) : Bool :=
  c.isAlphanum || c == '+' || c == '-' || c == '.'

/-- Strip a leading `scheme:` from the URL's characters, as CPython's
`urlsplit` does: the first `:` must appear at a positive position, the
first character must be an ASCII letter, and every character before the
colon must be a scheme character. -/
def dropScheme (cs : List Char) : List Char :=
  match cs.findIdx? (· == ':') with
  | some i =>
      if 0 < i && cs.head?.any Char.isAlpha && (cs.take i).all isSchemeChar then
        cs.drop (i + 1)
      else cs
  | none => cs

/-- The `netloc` component of CPython's `urlsplit`, as called by
`urlparse(url).netloc` at `main.py:14`.  Tab, CR and LF characters are
removed first; after the scheme, a netloc is present only when the
remainder starts with `//`, and extends to the next `/`, `?` or `#`.
`urlsplit` RAISES `ValueError` when the netloc contains `[` without `]`
or `]` without `[` — the message is `Invalid IPv6 URL` — and this
raising path is the `.error` case.  (The further validations CPython
applies, `_check_bracketed_host` on well-bracketed hosts and the NFKC
`_checknetloc` test, can only raise on bracketed or non-ASCII netlocs
and are not modelled; every netloc appearing in this development is
unbracketed ASCII, for which they never raise.) -/
def urlparse_netloc (url : String) : Except String String :=
  let cs := url.toList.filter (fun c => !(c == '\t' || c == '\r' || c == '\n'))
  match dropScheme cs with
  | '/' :: '/' :: rest =>
      let netloc := rest.takeWhile (fun c => c != '/' && c != '?' && c != '#')
      if (netloc.contains '[' && !netloc.contains ']')
          || (netloc.contains ']' && !netloc.contains '[') then
        Except.error "Invalid IPv6 URL"
      else
        Except.ok (String.mk netloc)
  | _ => Except.ok ""

deriving instance DecidableEq for Except

/-- The body of an HTTP response, as the two interpretations
`main.py:fetch_url` can request of it.  `soupTitle` is
`BeautifulSoup(html, 'html.parser').title`: `none` when the document has
no title element, `some none` when the element exists but its `.string`
is `None` (no single text child), `some (some s)` when `.string` is the
text `s`.  `json` is `response.json()`: the `str()` rendering of the
decoded value on success, or the raised exception's message on decode
failure. -/
structure HttpBody where
  soupTitle : Option (Option String)
  json : Except String String
deriving Repr, DecidableEq

/-- What the network layer produced for one `session.get` call:
a response (status, Content-Type header value, body), expiry of the
timeout (`asyncio.TimeoutError`), or any other raised failure carrying
`str(e)` (`main.py:50,58`). -/
inductive NetOutcome where
  | response (status : Int) (content_type : String) (body : HttpBody)
  | timeout
  | failure (msg : String)
deriving Repr, DecidableEq

/-- The per-URL record returned by `fetch_url` (`main.py:35-65`). -/
structure FetchResult where
  url : String
  title : String
  status : Int
  time_taken : ℚ
  domain : String
deriving Repr, DecidableEq

/-- The `try:` block of `main.py:fetch_url` (lines 16-65) over an
abstract network outcome; `domain` is the netloc computed at line 14 and
`elapsed` the measured wall-clock delta.  This part is total: every
exception arising inside the block is caught by the handlers at lines
50-65 and turned into a `FetchResult`.  In the 200-branch the Python
code computes `title` (a `str` or `None`) and returns
`title.strip() if isinstance(title, str) else str(title)`; `str(None)`
is the literal `"None"`. -/
def classify_response (url domain : String) (outcome : NetOutcome)
    (elapsed : ℚ) : FetchResult :=
  match outcome with
  | .response status content_type body =>
      if status = 200 then
        if strContains content_type "text/html" then
          let pyTitle : Option String :=
            match body.soupTitle with
            | some s? => s?
            | none => some "No title found"
          match pyTitle with
          | some s => ⟨url, pystrip s, status, elapsed, domain⟩
          | none => ⟨url, "None", status, elapsed, domain⟩
        else if strContains content_type "application/json" then
          match body.json with
          | .ok s =>
              ⟨url, pystrip ("JSON Response: " ++ toString s.length ++ " characters"),
                status, elapsed, domain⟩
          | .error m => ⟨url, "Error: " ++ m, -1, elapsed, domain⟩
        else
          ⟨url, pystrip ("Non-HTML content: " ++ content_type), status, elapsed, domain⟩
      else
        ⟨url, "Error: HTTP " ++ toString status, status, elapsed, domain⟩
  | .timeout => ⟨url, "Error: Timeout", -1, elapsed, domain⟩
  | .failure msg => ⟨url, "Error: " ++ msg, -1, elapsed, domain⟩

/-- `main.py:fetch_url` (lines 11-65).  Line 14 computes
`urlparse(url).netloc` BEFORE the `try:` block, so a `ValueError` raised
by `urlparse` propagates out of `fetch_url` (the `.error` case); once
the netloc is in hand, the `try:` block always produces a
`FetchResult`. -/
def fetch_url (url : String) (outcome : NetOutcome) (elapsed : ℚ) :
    Except String FetchResult :=
  (urlparse_netloc url).map
    (fun domain => classify_response url domain outcome elapsed)

/-- `asyncio.gather` places each task's result at the task's position in
the argument list, whatever order tasks complete in (`main.py:77`).
`events` lists `(input position, result)` pairs in completion order. -/
def gatherResults (n : Nat) (events : List (Nat × FetchResult)) : List FetchResult :=
  (List.range n).map (fun i =>
    match events.lookup i with
    | some r => r
    | none => ⟨"", "", 0, 0, ""⟩)

/-- The first exception raised by any task, in completion order:
`asyncio.gather` with the default `return_exceptions=False` propagates
it to the awaiter instead of returning a results list. -/
def raisedBeforeGather (events : List (Nat × Except String FetchResult)) :
    Option String :=
  events.findSome? (fun p =>
    match p.2 with
    | Except.error e => some e
    | Except.ok _ => none)

/-- `main.py:crawl_urls` (lines 67-78): one fetch task per URL, gathered
back into input order.  The environment supplies, per input position, the
network outcome (`net`) and measured elapsed time (`clock`); `order` is
the nondeterministic completion order of the tasks.  If any task raises
(which happens exactly when `urlparse` raises on its URL, before the
task's `try:` block), the first such exception in completion order
propagates out of `asyncio.gather` and no results list is produced. -/
def crawl_urls (urls : List String) (net : Nat → NetOutcome) (clock : Nat → ℚ)
    (order : List Nat) : Except String (List FetchResult) :=
  match raisedBeforeGather
      (order.map (fun i => (i, fetch_url (urls.getD i "") (net i) (clock i)))) with
  | some e => Except.error e
  | none =>
      Except.ok (gatherResults urls.length
        ((order.map (fun i => (i, fetch_url (urls.getD i "") (net i) (clock i)))).filterMap
          (fun p => match p.2 with
            | Except.ok r => some (p.1, r)
            | Except.error _ => none)))

/-- The summary record assembled in `main.py:main` (lines 125-131). -/
structure Summary where
  total_urls : Nat
  successful_fetches : Nat
  failed_fetches : Nat
  total_time : ℚ
  average_time_per_url : ℚ
deriving Repr, DecidableEq

/-- The summary computation of `main.py:main` (lines 125-131):
counts over the gathered results, and
`total_time / len(urls) if urls else 0`. -/
def mkSummary (urls : List String) (results : List FetchResult) (total_time : ℚ) :
    Summary where
  total_urls := urls.length
  successful_fetches := results.countP (fun r => r.status == 200)
  failed_fetches := results.countP (fun r => r.status != 200)
  total_time := total_time
  average_time_per_url := if urls.isEmpty then 0 else total_time / (urls.length : ℚ)

/-!
Semaphore model.  `main.py:18` wraps the network I/O of every fetch in
`async with semaphore`, where `semaphore = asyncio.Semaphore(max_concurrency)`
(`main.py:69`).  We model the run as a transition system: each of the `k`
task coroutines is pending, holding a slot (in the network I/O phase), or
done; a task may enter the I/O phase only by taking one of the `n`
available permits, and leaving the I/O phase — however the fetch ended,
normally or by a raised exception — returns its permit (the `async with`
block releases on every exit path).
-/

/-- Phase of one fetch task with respect to the semaphore. -/
inductive TaskPhase where
  | pending
  | holding
  | done
deriving Repr, DecidableEq, BEq

/-- Global state of a crawl run: remaining semaphore permits and the
phase of each task. -/
structure SemState where
  permits : Nat
  tasks : List TaskPhase
deriving Repr, DecidableEq

/-- Is this task in the network I/O phase? -/
def isHolding : TaskPhase → Bool
  | .holding => true
  | _ => false

/-- Number of tasks currently holding a concurrency slot (in the
network I/O phase). -/
def countHolding (s : SemState) : Nat :=
  s.tasks.countP isHolding

/-- Start of a run: `asyncio.Semaphore(n)` full, all `k` tasks pending. -/
def initState (n k : Nat) : SemState :=
  ⟨n, List.replicate k TaskPhase.pending⟩

/-- One scheduler step of the event loop: a pending task acquires a slot
(only when a permit is available), or a holding task finishes its fetch —
on any path, success, HTTP error, timeout or exception — and releases its
slot. -/
inductive SemStep : SemState → SemState → Prop where
  | acquire (s : SemState) (i : Nat)
      (hi : s.tasks[i]? = some TaskPhase.pending) (hp : 0 < s.permits) :
      SemStep s ⟨s.permits - 1, s.tasks.set i TaskPhase.holding⟩
  | finish (s : SemState) (i : Nat)
      (hi : s.tasks[i]? = some TaskPhase.holding) :
      SemStep s ⟨s.permits + 1, s.tasks.set i TaskPhase.done⟩

/-- States reachable during a run with `n` permits and `k` tasks. -/
inductive SemReachable (n k : Nat) : SemState → Prop where
  | init : SemReachable n k (initState n k)
  | step {s t : SemState} : SemReachable n k s → SemStep s t → SemReachable n k t

/-! Helper lemmas. -/

/-- Counting the hits of a predicate and of its negation covers the list. -/
lemma countP_add_countP_not {α : Type} (p : α → Bool) (l : List α) :
    l.countP p + l.countP (fun a => !(p a)) = l.length := by
  induction l with
  | nil => simp
  | cons a t ih =>
      by_cases h : p a <;> simp [List.countP_cons, h] <;> omega

/-- Looking up `i` in an association list whose pairs tie each key to
`f` of that key yields `f i`, as soon as `i` occurs among the keys. -/
lemma lookup_map_self {β : Type} (f : Nat → β) (l : List Nat) (i : Nat)
    (h : i ∈ l) : (l.map (fun j => (j, f j))).lookup i = some (f i) := by
  induction l with
  | nil => cases h
  | cons a t ih =>
      rcases List.mem_cons.mp h with rfl | ht
      · simp [List.lookup]
      · by_cases ha : i = a
        · subst ha; simp [List.lookup]
        · simpa [List.lookup, Ne.symm ha, beq_false_of_ne ha] using ih ht

/-- Effect of writing `b` over the element `a` at position `i` on a
predicate count, stated without truncated subtraction. -/
lemma countP_set_eq {α : Type} (p : α → Bool) (l : List α) (i : Nat) (a b : α)
    (h : l[i]? = some a) :
    (l.set i b).countP p + (if p a then 1 else 0)
      = l.countP p + (if p b then 1 else 0) := by
  induction l generalizing i with
  | nil => simp at h
  | cons x t ih =>
      cases i with
      | zero =>
          simp only [List.getElem?_cons_zero, Option.some.injEq] at h
          subst h
          simp only [List.set_cons_zero, List.countP_cons]
          by_cases hb : p b <;> by_cases hx : p x <;> simp [hb, hx]
      | succ m =>
          simp only [List.getElem?_cons_succ] at h
          simp only [List.set_cons_succ, List.countP_cons]
          have := ih m h
          by_cases hx : p x <;> simp [hx] <;> omega

/-- Every branch of the `try:` block returns a record built from the
`url` argument and the `domain` computed before it. -/
lemma classify_response_fields (url domain : String) (outcome : NetOutcome)
    (t : ℚ) :
    (classify_response url domain outcome t).url = url ∧
    (classify_response url domain outcome t).domain = domain := by
  rcases outcome with ⟨status, ct, st, j⟩ | _ | msg
  · constructor <;>
      · simp only [classify_response]
        split
        · split
          · rcases st with _ | _ | s <;> rfl
          · split
            · rcases j with m | s <;> rfl
            · rfl
        · rfl
  · exact ⟨rfl, rfl⟩
  · exact ⟨rfl, rfl⟩

/-- Inversion for a successful `fetch_url`: the record's `domain` is the
netloc `urlparse` extracted at `main.py:14` and its `url` is the input
URL. -/
lemma fetch_url_ok_inv (url : String) (outcome : NetOutcome) (t : ℚ)
    (r : FetchResult) (h : fetch_url url outcome t = Except.ok r) :
    urlparse_netloc url = Except.ok r.domain ∧ r.url = url := by
  cases hu : urlparse_netloc url with
  | error e =>
      rw [fetch_url, hu] at h
      cases h
  | ok d =>
      rw [fetch_url, hu] at h
      simp only [Except.map, Except.ok.injEq] at h
      obtain ⟨h1, h2⟩ := classify_response_fields url d outcome t
      subst h
      rw [h2, h1]
      exact ⟨rfl, rfl⟩

/-- `findSome?` finds nothing when the function returns `none` on every
element. -/
lemma findSome?_eq_none_of {α β : Type} (f : α → Option β) (l : List α)
    (h : ∀ a ∈ l, f a = none) : l.findSome? f = none := by
  induction l with
  | nil => rfl
  | cons a t ih =>
      rw [List.findSome?_cons, h a (List.mem_cons_self a t)]
      exact ih (fun x hx => h x (List.mem_cons_of_mem a hx))

/-- `filterMap` is a plain `map` when the function yields `some` of a
known value on every element. -/
lemma filterMap_eq_map_of_some {α β : Type} (f : α → Option β) (g : α → β)
    (l : List α) (h : ∀ a ∈ l, f a = some (g a)) :
    l.filterMap f = l.map g := by
  induction l with
  | nil => rfl
  | cons a t ih =>
      rw [List.filterMap_cons, h a (List.mem_cons_self a t), List.map_cons,
        ih (fun x hx => h x (List.mem_cons_of_mem a hx))]

/-- Collecting index-keyed results over any completion order that is a
permutation of the input positions reconstructs the input-order list. -/
lemma gatherResults_perm_map (n : Nat) (order : List Nat)
    (f : Nat → FetchResult) (h : order.Perm (List.range n)) :
    gatherResults n (order.map (fun i => (i, f i))) = (List.range n).map f := by
  unfold gatherResults
  apply List.map_congr_left
  intro i hi
  rw [lookup_map_self f order i (h.mem_iff.2 hi)]

/-- Stripping a character list whose first and last characters are not
whitespace changes nothing. -/
lemma pystripL_of_ends (c d : Char) (xs : List Char)
    (hc : c.isWhitespace = false) (hd : d.isWhitespace = false) :
    pystripL (c :: (xs ++ [d])) = c :: (xs ++ [d]) := by
  unfold pystripL
  rw [List.dropWhile_cons]
  simp only [hc, Bool.false_eq_true, if_false]
  rw [List.reverse_cons, List.reverse_append, List.reverse_singleton,
    List.singleton_append, List.cons_append, List.dropWhile_cons]
  simp only [hd, Bool.false_eq_true, if_false]
  rw [← List.cons_append, ← List.singleton_append, ← List.reverse_singleton,
    ← List.reverse_append, ← List.reverse_cons, List.reverse_reverse]
  simp

/-- The JSON title assembled at `main.py:30` has no whitespace at either
end, so the `.strip()` at `main.py:37` leaves it unchanged. -/
lemma pystrip_json_title (n : Nat) :
    pystrip ("JSON Response: " ++ toString n ++ " characters")
      = "JSON Response: " ++ toString n ++ " characters" := by
  have hsplit : ("JSON Response: " ++ toString n ++ " characters").toList
      = 'J' :: (("SON Response: ".toList ++ (toString n).toList
          ++ " character".toList) ++ ['s']) := by
    have happ : ("JSON Response: " ++ toString n ++ " characters").toList
        = "JSON Response: ".toList ++ (toString n).toList ++ " characters".toList := rfl
    have hA : "JSON Response: ".toList = 'J' :: "SON Response: ".toList := by decide
    have hB : " characters".toList = " character".toList ++ ['s'] := by decide
    rw [happ, hA, hB]
    simp [List.append_assoc]
  have key : pystripL ("JSON Response: " ++ toString n ++ " characters").toList
      = ("JSON Response: " ++ toString n ++ " characters").toList := by
    rw [hsplit]
    exact pystripL_of_ends 'J' 's' _ (by decide) (by decide)
  show String.mk (pystripL ("JSON Response: " ++ toString n ++ " characters").toList) = _
  rw [key]
  rfl

/-- The semaphore accounting invariant: at every reachable state, the
tasks in the network I/O phase and the free permits together account for
exactly the `n` permits the semaphore was created with. -/
lemma sem_invariant {n k : Nat} {s : SemState} (h : SemReachable n k s) :
    countHolding s + s.permits = n := by
  induction h with
  | init =>
      have hz : ∀ m, (List.replicate m TaskPhase.pending).countP isHolding = 0 := by
        intro m
        induction m with
        | zero => rfl
        | succ j ihj => simp [List.replicate_succ, List.countP_cons, isHolding, ihj]
      simp [countHolding, initState, hz]
  | step hr hs ih =>
      cases hs with
      | acquire i hi hp =>
          have hc := countP_set_eq isHolding _ i _ TaskPhase.holding hi
          simp only [countHolding] at ih ⊢
          simp only [isHolding, if_true, if_false] at hc
          simp at hc ⊢
          omega
      | finish i hi =>
          have hc := countP_set_eq isHolding _ i _ TaskPhase.done hi
          simp only [countHolding] at ih ⊢
          simp only [isHolding, if_true, if_false] at hc
          simp at hc ⊢
          omega

/-! Claim theorems. -/

/-- Counterexample to C1: with two input URLs of which the second is the
unbalanced-bracket `http://[::1`, `urlparse` raises `Invalid IPv6 URL`
inside that task, the exception propagates out of `asyncio.gather`, and
`crawl_urls` returns no results sequence at all — not a sequence of two
entries. -/
theorem crawl_urls_raises_counterexample :
    crawl_urls ["https://example.com", "http://[::1"]
        (fun _ => NetOutcome.timeout) (fun _ => 0) [0, 1]
      = Except.error "Invalid IPv6 URL" := by
  decide

/-- C1 as amended: for every list of N input URLs on each of which
`urlparse` does not raise, `crawl_urls` returns a results sequence with
exactly N entries, the entry at position i being the `FetchResult`
produced for the URL at input position i, whatever order the fetch tasks
complete in.  (When `urlparse` raises on some input URL, the exception
propagates and no results sequence is returned.) -/
theorem crawl_urls_position_preserving (urls : List String)
    (net : Nat → NetOutcome) (clock : Nat → ℚ) (order : List Nat)
    (h : order.Perm (List.range urls.length))
    (hok : ∀ u ∈ urls, (urlparse_netloc u).toOption.isSome = true) :
    crawl_urls urls net clock order
      = Except.ok ((List.range urls.length).map (fun i =>
          (fetch_url (urls.getD i "") (net i) (clock i)).toOption.getD
            ⟨"", "", 0, 0, ""⟩)) ∧
    ((List.range urls.length).map (fun i =>
        (fetch_url (urls.getD i "") (net i) (clock i)).toOption.getD
          ⟨"", "", 0, 0, ""⟩)).length = urls.length := by
  have hfetch : ∀ i ∈ order,
      fetch_url (urls.getD i "") (net i) (clock i)
        = Except.ok ((fetch_url (urls.getD i "") (net i) (clock i)).toOption.getD
            ⟨"", "", 0, 0, ""⟩) := by
    intro i hi
    have hirange : i < urls.length := List.mem_range.mp (h.mem_iff.1 hi)
    have hmem : urls.getD i "" ∈ urls := by
      rw [List.getD_eq_getElem urls "" hirange]
      exact List.getElem_mem hirange
    have hsome := hok _ hmem
    cases hu : urlparse_netloc (urls.getD i "") with
    | error e => rw [hu] at hsome; simp [Except.toOption] at hsome
    | ok d =>
        unfold fetch_url
        simp only [hu]
        rfl
  refine ⟨?_, by simp⟩
  unfold crawl_urls
  have hnone : raisedBeforeGather (order.map (fun i =>
      (i, fetch_url (urls.getD i "") (net i) (clock i)))) = none := by
    unfold raisedBeforeGather
    apply findSome?_eq_none_of
    intro p hp
    obtain ⟨i, hi, rfl⟩ := List.mem_map.1 hp
    show (match fetch_url (urls.getD i "") (net i) (clock i) with
      | Except.error e => some e
      | Except.ok _ => none) = none
    rw [hfetch i hi]
  rw [hnone]
  have hfm : (order.map (fun i =>
        (i, fetch_url (urls.getD i "") (net i) (clock i)))).filterMap
      (fun p => match p.2 with
        | Except.ok r => some (p.1, r)
        | Except.error _ => none)
    = order.map (fun i =>
        (i, (fetch_url (urls.getD i "") (net i) (clock i)).toOption.getD
          ⟨"", "", 0, 0, ""⟩)) := by
    rw [List.filterMap_map]
    apply filterMap_eq_map_of_some
    intro i hi
    simp only [Function.comp]
    rw [hfetch i hi]
    rfl
  rw [hfm, gatherResults_perm_map urls.length order _ h]

/-- Witness for C1: a two-URL run, both URLs accepted by `urlparse`,
whose tasks complete in reversed order still reports the results in
input order. -/
theorem crawl_urls_position_preserving_witness :
    crawl_urls ["https://a.example", "https://b.example"]
        (fun _ => NetOutcome.timeout) (fun _ => 0) [1, 0]
      = Except.ok ((List.range 2).map (fun i =>
          (fetch_url (["https://a.example", "https://b.example"].getD i "")
              NetOutcome.timeout 0).toOption.getD ⟨"", "", 0, 0, ""⟩)) ∧
    ((List.range 2).map (fun i =>
        (fetch_url (["https://a.example", "https://b.example"].getD i "")
            NetOutcome.timeout 0).toOption.getD ⟨"", "", 0, 0, ""⟩)).length = 2 :=
  crawl_urls_position_preserving ["https://a.example", "https://b.example"]
    (fun _ => NetOutcome.timeout) (fun _ => 0) [1, 0] (by decide) (by decide)

/-- Counterexample to C2: for the URL `http://[::1`, `urlparse` at
`main.py:14` — before the `try:` block — raises `Invalid IPv6 URL`, so
`fetch_url` propagates an exception instead of returning a
`FetchResult`. -/
theorem fetch_url_raises_counterexample :
    fetch_url "http://[::1" NetOutcome.timeout 0
      = Except.error "Invalid IPv6 URL" := by
  decide

/-- C2 as amended: when the netloc extraction of `main.py:14` raises,
that exception propagates out of `fetch_url` unchanged; in every other
case `fetch_url` returns a `FetchResult` and never propagates an
exception from the `try:` block — on timeout status -1 with title
`Error: Timeout`, on any other raised failure status -1 with `Error: `
followed by the failure's diagnostic string, and a JSON decode failure
takes the same general-error path.  Each conjunct states both halves at
once via `Except.map`, which preserves the `urlparse` error. -/
theorem fetch_url_error_paths (url : String) (t : ℚ) (msg : String)
    (ct : String) (body : HttpBody) (m : String)
    (h1 : strContains ct "text/html" = false)
    (h2 : strContains ct "application/json" = true)
    (hb : body.json = Except.error m) :
    fetch_url url NetOutcome.timeout t
      = (urlparse_netloc url).map
          (fun d => ⟨url, "Error: Timeout", -1, t, d⟩) ∧
    fetch_url url (NetOutcome.failure msg) t
      = (urlparse_netloc url).map
          (fun d => ⟨url, "Error: " ++ msg, -1, t, d⟩) ∧
    fetch_url url (NetOutcome.response 200 ct body) t
      = (urlparse_netloc url).map
          (fun d => ⟨url, "Error: " ++ m, -1, t, d⟩) := by
  refine ⟨rfl, rfl, ?_⟩
  cases hu : urlparse_netloc url with
  | error e => simp [fetch_url, hu, Except.map]
  | ok d => simp [fetch_url, hu, Except.map, classify_response, h1, h2, hb]

/-- Witness for C2 at a concrete URL accepted by `urlparse`: timeout,
connection failure and JSON decode failure each yield a status -1 error
record rather than an exception. -/
theorem fetch_url_error_paths_witness :
    fetch_url "https://x.test/a" NetOutcome.timeout 2
      = Except.ok ⟨"https://x.test/a", "Error: Timeout", -1, 2, "x.test"⟩ ∧
    fetch_url "https://x.test/a" (NetOutcome.failure "Cannot connect to host") 2
      = Except.ok ⟨"https://x.test/a", "Error: Cannot connect to host", -1, 2, "x.test"⟩ ∧
    fetch_url "https://x.test/a"
        (NetOutcome.response 200 "application/json" ⟨none, Except.error "Expecting value"⟩) 2
      = Except.ok ⟨"https://x.test/a", "Error: Expecting value", -1, 2, "x.test"⟩ := by
  have h := fetch_url_error_paths "https://x.test/a" 2 "Cannot connect to host"
    "application/json" ⟨none, Except.error "Expecting value"⟩ "Expecting value"
    (by decide) (by decide) rfl
  refine ⟨?_, ?_, ?_⟩ <;> [rw [h.1]; rw [h.2.1]; rw [h.2.2]] <;> decide

/-- C3: for every completed run, one result per input URL, the summary
satisfies successful_fetches + failed_fetches = total_urls, where the
two counts are over status = 200 and status ≠ 200 respectively. -/
theorem summary_counts_partition (urls : List String)
    (results : List FetchResult) (t : ℚ) (h : results.length = urls.length) :
    (mkSummary urls results t).successful_fetches
      + (mkSummary urls results t).failed_fetches
      = (mkSummary urls results t).total_urls := by
  simp only [mkSummary]
  rw [← h]
  simpa using countP_add_countP_not (fun r : FetchResult => r.status == 200) results

/-- Witness for C3 on a concrete three-result run. -/
theorem summary_counts_partition_witness :
    (mkSummary ["https://a.example", "https://b.example", "https://c.example"]
        [⟨"https://a.example", "A", 200, 1, "a.example"⟩,
         ⟨"https://b.example", "Error: HTTP 500", 500, 1, "b.example"⟩,
         ⟨"https://c.example", "Error: Timeout", -1, 1, "c.example"⟩] 3).successful_fetches
      + (mkSummary ["https://a.example", "https://b.example", "https://c.example"]
        [⟨"https://a.example", "A", 200, 1, "a.example"⟩,
         ⟨"https://b.example", "Error: HTTP 500", 500, 1, "b.example"⟩,
         ⟨"https://c.example", "Error: Timeout", -1, 1, "c.example"⟩] 3).failed_fetches
      = (mkSummary ["https://a.example", "https://b.example", "https://c.example"]
        [⟨"https://a.example", "A", 200, 1, "a.example"⟩,
         ⟨"https://b.example", "Error: HTTP 500", 500, 1, "b.example"⟩,
         ⟨"https://c.example", "Error: Timeout", -1, 1, "c.example"⟩] 3).total_urls :=
  summary_counts_partition _ _ 3 rfl

/-- C4: average_time_per_url is total_time / total_urls when there is at
least one URL, and 0 when there are none; the division is guarded by the
emptiness test. -/
theorem average_time_guarded (urls : List String) (results : List FetchResult)
    (t : ℚ) :
    (urls ≠ [] → (mkSummary urls results t).average_time_per_url
        = t / (urls.length : ℚ)) ∧
    (urls = [] → (mkSummary urls results t).average_time_per_url = 0) := by
  constructor
  · intro h
    simp [mkSummary, h]
  · intro h
    subst h
    simp [mkSummary]

/-- Witness for C4: one URL taking 5 seconds averages 5; no URLs
average 0. -/
theorem average_time_guarded_witness :
    (mkSummary ["https://a.example"] [] 5).average_time_per_url = 5 ∧
    (mkSummary [] [] 5).average_time_per_url = 0 := by
  refine ⟨?_, (average_time_guarded [] [] 5).2 rfl⟩
  have h := (average_time_guarded ["https://a.example"] [] 5).1 (by simp)
  simpa using h

/-- C5: in every state reachable during a run with `n` semaphore permits
and `k` fetch tasks, the tasks holding a concurrency slot plus the free
permits account exactly for the `n` permits, so at no instant do more
than `n` fetches sit in the network I/O phase; the only transition out
of the I/O phase returns the permit, on success and on every error
path. -/
theorem semaphore_concurrency_bound (n k : Nat) (s : SemState)
    (h : SemReachable n k s) :
    countHolding s + s.permits = n ∧ countHolding s ≤ n := by
  have hinv := sem_invariant h
  exact ⟨hinv, by omega⟩

/-- Witness for C5: with one permit and one task, the state after the
task acquires the slot is reachable and holds exactly one slot. -/
theorem semaphore_concurrency_bound_witness :
    countHolding ⟨0, [TaskPhase.holding]⟩ + 0 = 1 ∧
    countHolding ⟨0, [TaskPhase.holding]⟩ ≤ 1 :=
  semaphore_concurrency_bound 1 1 ⟨0, [TaskPhase.holding]⟩
    (SemReachable.step SemReachable.init
      (SemStep.acquire (initState 1 1) 0 rfl (by decide)))

/-- C6: a response with a status other than 200 yields a record carrying
that status and the title `Error: HTTP ` followed by the status (stated
via `Except.map` over the netloc extraction, whose possible `ValueError`
means no response existed to classify). -/
theorem fetch_url_http_error (url ct : String) (body : HttpBody) (t : ℚ)
    (status : Int) (h : status ≠ 200) :
    fetch_url url (NetOutcome.response status ct body) t
      = (urlparse_netloc url).map
          (fun d => ⟨url, "Error: HTTP " ++ toString status, status, t, d⟩) := by
  cases hu : urlparse_netloc url with
  | error e => simp [fetch_url, hu, Except.map]
  | ok d => simp [fetch_url, hu, Except.map, classify_response, h]

/-- Witness for C6: a 404 response yields status 404 and title
`Error: HTTP 404`. -/
theorem fetch_url_http_error_witness :
    fetch_url "https://a.example/x"
        (NetOutcome.response 404 "text/html" ⟨none, Except.ok ""⟩) 0
      = Except.ok ⟨"https://a.example/x", "Error: HTTP 404", 404, 0, "a.example"⟩ := by
  have h := fetch_url_http_error "https://a.example/x" "text/html"
    ⟨none, Except.ok ""⟩ 0 404 (by decide)
  rw [h]
  decide

/-- Counterexample to C7: in a 200 HTML response whose title element
exists but has no text (`soup.title.string` is `None`), `fetch_url`
returns the title `None` — the string form of the absent value — and not
`No title found`. -/
theorem html_empty_title_counterexample :
    (fetch_url "https://a.example/" (NetOutcome.response 200 "text/html"
        ⟨some none, Except.ok ""⟩) 0).map FetchResult.title = Except.ok "None" ∧
    (fetch_url "https://a.example/" (NetOutcome.response 200 "text/html"
        ⟨some none, Except.ok ""⟩) 0).map FetchResult.title
      ≠ Except.ok "No title found" := by
  decide

/-- C7 as amended: for a 200 response whose Content-Type contains
`text/html`, the title is the document's title text stripped of leading
and trailing whitespace; it is `No title found` when the document has no
title element, and the string `None` when the title element exists but
has no single text child. -/
theorem html_title_classification (url ct : String) (body : HttpBody) (t : ℚ)
    (h : strContains ct "text/html" = true) :
    (fetch_url url (NetOutcome.response 200 ct body) t).map FetchResult.title
      = (urlparse_netloc url).map (fun _ =>
          match body.soupTitle with
          | none => "No title found"
          | some none => "None"
          | some (some s) => pystrip s) := by
  cases hu : urlparse_netloc url with
  | error e => simp [fetch_url, hu, Except.map]
  | ok d =>
      cases hb : body.soupTitle with
      | none =>
          simp only [fetch_url, hu, Except.map, classify_response, h, if_true, hb]
          decide
      | some s? =>
          cases s? with
          | none => simp [fetch_url, hu, Except.map, classify_response, h, hb]
          | some s => simp [fetch_url, hu, Except.map, classify_response, h, hb]

/-- Witness for C7: an HTML page whose title text carries surrounding
whitespace comes back trimmed. -/
theorem html_title_classification_witness :
    (fetch_url "https://a.example/" (NetOutcome.response 200 "text/html; charset=utf-8"
        ⟨some (some "  Hello  "), Except.ok ""⟩) 0).map FetchResult.title
      = Except.ok "Hello" := by
  have h := html_title_classification "https://a.example/" "text/html; charset=utf-8"
    ⟨some (some "  Hello  "), Except.ok ""⟩ 0 (by decide)
  rw [h]
  decide

/-- Counterexample to C8: with an empty Content-Type the final
`.strip()` of `main.py:37` removes the trailing space, so the title is
`Non-HTML content:` and not the verbatim `Non-HTML content: `. -/
theorem nonhtml_content_type_counterexample :
    (fetch_url "https://a.example/" (NetOutcome.response 200 ""
        ⟨none, Except.ok ""⟩) 0).map FetchResult.title
      = Except.ok "Non-HTML content:" ∧
    (fetch_url "https://a.example/" (NetOutcome.response 200 ""
        ⟨none, Except.ok ""⟩) 0).map FetchResult.title
      ≠ Except.ok "Non-HTML content: " := by
  decide

/-- C8 as amended: for a 200 response whose Content-Type lacks
`text/html`, a Content-Type containing `application/json` gives the
title `JSON Response: N characters` with N the length of the decoded
value's string representation (a decode failure takes the general error
path); any other Content-Type gives `Non-HTML content: ` followed by
the Content-Type, the whole title then stripped of leading and trailing
whitespace, which removes the trailing space when the Content-Type is
empty or ends in whitespace. -/
theorem json_and_other_content_classification (url ct : String)
    (body : HttpBody) (t : ℚ) (h : strContains ct "text/html" = false) :
    (fetch_url url (NetOutcome.response 200 ct body) t).map FetchResult.title
      = (urlparse_netloc url).map (fun _ =>
          if strContains ct "application/json" then
            match body.json with
            | .ok s => "JSON Response: " ++ toString s.length ++ " characters"
            | .error m => "Error: " ++ m
          else pystrip ("Non-HTML content: " ++ ct)) := by
  cases hu : urlparse_netloc url with
  | error e => simp [fetch_url, hu, Except.map]
  | ok d =>
      by_cases hj : strContains ct "application/json" = true
      · cases hbj : body.json with
        | ok s =>
            simp [fetch_url, hu, Except.map, classify_response, h, hj, hbj,
              pystrip_json_title]
        | error m => simp [fetch_url, hu, Except.map, classify_response, h, hj, hbj]
      · simp [fetch_url, hu, Except.map, classify_response, h, hj]

/-- Witness for C8: a JSON body whose decoded value prints as the
six-character `[1, 2]` yields `JSON Response: 6 characters`. -/
theorem json_and_other_content_classification_witness :
    (fetch_url "https://a.example/" (NetOutcome.response 200 "application/json"
        ⟨none, Except.ok "[1, 2]"⟩) 0).map FetchResult.title
      = Except.ok "JSON Response: 6 characters" := by
  have h := json_and_other_content_classification "https://a.example/"
    "application/json" ⟨none, Except.ok "[1, 2]"⟩ 0 (by decide)
  rw [h]
  decide

/-- Counterexample to C9: the recorded domain for
`https://example.com/page` is the netloc `example.com`; the scheme
`https` is not part of it, so the domain is not scheme plus host. -/
theorem domain_not_scheme_plus_host :
    (fetch_url "https://example.com/page" NetOutcome.timeout 0).map
        FetchResult.domain = Except.ok "example.com" ∧
    (fetch_url "https://example.com/page" NetOutcome.timeout 0).map
        (fun r => "https".toList.isPrefixOf r.domain.toList) = Except.ok false := by
  decide

/-- C9 as amended: the domain field of every `FetchResult` that
`fetch_url` returns is the `netloc` (authority, host and optional port)
component that `urlparse` extracts from the URL; the scheme is not
included. -/
theorem fetch_result_domain_is_netloc (url : String) (outcome : NetOutcome)
    (t : ℚ) (r : FetchResult) (h : fetch_url url outcome t = Except.ok r) :
    urlparse_netloc url = Except.ok r.domain :=
  (fetch_url_ok_inv url outcome t r h).1

/-- Witness for C9 at a concrete fetch: the recorded domain is the
parsed netloc `example.com`. -/
theorem fetch_result_domain_is_netloc_witness :
    urlparse_netloc "https://example.com/page" = Except.ok "example.com" :=
  fetch_result_domain_is_netloc "https://example.com/page" NetOutcome.timeout 0
    ⟨"https://example.com/page", "Error: Timeout", -1, 0, "example.com"⟩
    (by decide)

/-- C10: on every outcome branch — 200 response, non-200 response,
timeout, or any other failure — every record `fetch_url` returns has its
`url` field equal to the input URL and its `domain` field equal to the
netloc parsed from that URL before any network activity. -/
theorem fetch_result_carries_url_and_domain (url : String)
    (outcome : NetOutcome) (t : ℚ) (r : FetchResult)
    (h : fetch_url url outcome t = Except.ok r) :
    r.url = url ∧ urlparse_netloc url = Except.ok r.domain :=
  ⟨(fetch_url_ok_inv url outcome t r h).2, (fetch_url_ok_inv url outcome t r h).1⟩

/-- Witness for C10 at a concrete failed fetch: the error record still
carries the input URL and its parsed netloc. -/
theorem fetch_result_carries_url_and_domain_witness :
    (⟨"https://b.example/x?q=1", "Error: boom", -1, 0, "b.example"⟩
        : FetchResult).url = "https://b.example/x?q=1" ∧
    urlparse_netloc "https://b.example/x?q=1"
      = Except.ok (⟨"https://b.example/x?q=1", "Error: boom", -1, 0, "b.example"⟩
          : FetchResult).domain :=
  fetch_result_carries_url_and_domain "https://b.example/x?q=1"
    (NetOutcome.failure "boom") 0
    ⟨"https://b.example/x?q=1", "Error: boom", -1, 0, "b.example"⟩ (by decide)
